import Mathlib

/-!
Verification development for `dev-scripts/verify-data.py` (ncps data-integrity
verifier). The Python source is shallowly embedded: pure helpers become Lean
functions; side-effecting calls (storage reads, zstd decompression, hashing,
the external `nix-hash` base-32 converter) become fields of an explicit
environment `Env`; the per-chunk loop of `verify_cdc` becomes a fold over an
explicit loop state. Error messages are represented by structured constructors
(one per distinct `errors.append` site in the source) instead of formatted
strings. Machine integers are modelled as `Nat` (all sizes in the source are
non-negative byte counts). The loop state additionally records the list of
storage keys read, a trace of the `read_local` / `read_s3` calls the source
issues; it changes no control flow.
-/

namespace NcpsVerify

/-- Bytes read from storage; each byte is a `Nat` (values only flow through
the hash/decompression oracles, so no modular arithmetic is needed). -/
abbrev Bytes := List Nat

/-- The effectful context of `verify-data.py`:
`read` is `read_local`/`read_s3` (`none` = `FileNotFoundError`);
`decompress` is `zstd.ZstdDecompressor().decompress` (`none` = `ZstdError`);
`blake3hex` is `blake3(data).hexdigest()`;
`sha256hex` is the digest of everything fed to an incremental
`hashlib.sha256` (incremental updates hash the concatenation);
`toNix32` is `to_nix32`, the `nix-hash --to-base32` subprocess, which
returns `None` when the binary is missing or the call fails. -/
structure Env where
  read : String → Option Bytes
  decompress : Bytes → Option Bytes
  blake3hex : Bytes → String
  sha256hex : Bytes → String
  toNix32 : String → Option String

/-- `os.path.join` on relative POSIX path components (the source joins
`"store"`, shard directories, and a filename; S3 keys use `/` as well). -/
def ospath_join : List String → String
  | [] => ""
  | [p] => p
  | p :: rest => p ++ "/" ++ ospath_join rest

/-- `nar_file_key(hash_, compression)`: relative path/S3 key for a flat NAR
file. The suffix is appended when `compression and compression not in
("", "none")`, i.e. the string is non-empty and differs from `"none"`. -/
def nar_file_key (hash_ : String) (compression : String) : String :=
  let filename := hash_ ++ ".nar"
  let filename :=
    if compression ≠ "" ∧ compression ≠ "none" then filename ++ "." ++ compression
    else filename
  ospath_join ["store", "nar", hash_.take 1, hash_.take 2, filename]

/-- `chunk_key(hash_)`: relative path/S3 key for a CDC chunk. -/
def chunk_key (hash_ : String) : String :=
  ospath_join ["store", "chunk", hash_.take 1, hash_.take 2, hash_]

/-- `strip_prefix(h)`: drop a leading `"sha256:"` scheme from a DB hash value
(`if h and h.startswith("sha256:")`; a `None`/empty value is returned as is,
modelled by the empty string). -/
def stripScheme (h : String) : String :=
  if h ≠ "" ∧ h.startsWith "sha256:" then h.drop 7 else h

/-- `hash_matches(computed_hex, expected_db)`: after stripping the scheme, an
empty expected value never matches; otherwise try hex identity first, then
convert the computed hex via `to_nix32` and compare, where a failed conversion
(`None`) yields `False`. -/
def hash_matches (toNix32 : String → Option String) (computed_hex expected_db : String) : Bool :=
  let expected := stripScheme expected_db
  if expected = "" then false
  else if computed_hex = expected then true
  else
    match toNix32 computed_hex with
    | none => false
    | some nix32 => nix32 = expected

/-- One row of the ordered `nar_file_chunks ⋈ chunks` query in `verify_cdc`. -/
structure ChunkRow where
  chunk_index : Nat
  hash : String
  size : Nat
  compressed_size : Nat
deriving DecidableEq

/-- Errors `verify_cdc` can append, one constructor per `errors.append` site. -/
inductive CdcError
  /-- "CDC: no chunks found in nar_file_chunks (expected > 0)" -/
  | noChunks
  /-- "Chunk …: Missing file/S3 object" (a `FileNotFoundError` from the read) -/
  | chunkRead (hash : String)
  /-- "Chunk …: compressed size mismatch (disk …, DB …)" -/
  | chunkCompressedSize (hash : String) (disk db : Nat)
  /-- "Chunk …: zstd decompression failed" -/
  | chunkDecompress (hash : String)
  /-- "Chunk …: uncompressed size mismatch (got …, DB …)" -/
  | chunkSize (hash : String) (got db : Nat)
  /-- "Chunk …: BLAKE3 mismatch (got …, expected declared hash)" -/
  | chunkHash (hash got : String)
  /-- "Reconstructed NAR size mismatch (got …, DB nar_size=…)" -/
  | narSize (got db : Nat)
  /-- "Reconstructed NAR hash mismatch" -/
  | narHash (expectedDb gotHex : String)
deriving DecidableEq

/-- The whole-object (post-loop) errors of `verify_cdc`, as opposed to the
per-chunk errors appended inside the loop. -/
def isWholeObjectErr : CdcError → Bool
  | CdcError.narSize _ _ => true
  | CdcError.narHash _ _ => true
  | _ => false

/-- State threaded through `verify_cdc`'s chunk loop: the `errors` list, the
bytes fed so far to the incremental `sha256` (`acc`), the running
`total_size`, and the trace of storage keys read (`reads`). -/
structure CdcState where
  errors : List CdcError
  acc : Bytes
  total_size : Nat
  reads : List String
deriving DecidableEq

/-- One iteration of the `for chunk in chunks` loop of `verify_cdc`:
read the compressed bytes (failure appends and `continue`s), check the
compressed size, decompress (failure appends and `continue`s), check the
uncompressed size, check the BLAKE3 digest against the declared chunk hash by
string equality, then feed the data to the running hash and byte count. -/
def processChunk (env : Env) (st : CdcState) (chunk : ChunkRow) : CdcState :=
  let key := chunk_key chunk.hash
  let st := { st with reads := st.reads ++ [key] }
  match env.read key with
  | none => { st with errors := st.errors ++ [CdcError.chunkRead chunk.hash] }
  | some compressed =>
    let st :=
      if compressed.length ≠ chunk.compressed_size then
        { st with errors := st.errors ++
            [CdcError.chunkCompressedSize chunk.hash compressed.length chunk.compressed_size] }
      else st
    match env.decompress compressed with
    | none => { st with errors := st.errors ++ [CdcError.chunkDecompress chunk.hash] }
    | some data =>
      let st :=
        if data.length ≠ chunk.size then
          { st with errors := st.errors ++ [CdcError.chunkSize chunk.hash data.length chunk.size] }
        else st
      let computed_b3 := env.blake3hex data
      let st :=
        if computed_b3 ≠ chunk.hash then
          { st with errors := st.errors ++ [CdcError.chunkHash chunk.hash computed_b3] }
        else st
      { st with acc := st.acc ++ data, total_size := st.total_size + data.length }

/-- Insertion step for the `ORDER BY nfc.chunk_index` of the chunk query. -/
def insertChunk (c : ChunkRow) : List ChunkRow → List ChunkRow
  | [] => [c]
  | d :: ds => if c.chunk_index ≤ d.chunk_index then c :: d :: ds else d :: insertChunk c ds

/-- The `ORDER BY nfc.chunk_index` of the chunk query, as a stable insertion
sort on `chunk_index`. -/
def sortChunks : List ChunkRow → List ChunkRow
  | [] => []
  | c :: cs => insertChunk c (sortChunks cs)

/-- Result of `verify_cdc`: the returned error list plus the trace of storage
keys read. -/
structure CdcResult where
  errors : List CdcError
  reads : List String
deriving DecidableEq

/-- `verify_cdc(cur, db_type, state, nar_file_id, nar_hash_db, nar_size_db)`.
`rows` stands for the `nar_file_chunks ⋈ chunks` rows of the given
`nar_file_id`, sorted here to model the query's `ORDER BY chunk_index`.
An empty result returns the `noChunks` error. Otherwise the loop runs over
every chunk; if it produced any error, those errors are returned and the
whole-object checks are skipped; otherwise the reconstructed size is compared
to `nar_size_db` and the reconstructed digest to `nar_hash_db` via
`hash_matches`. -/
def verify_cdc (env : Env) (rows : List ChunkRow) (nar_hash_db : String)
    (nar_size_db : Nat) : CdcResult :=
  let chunks := sortChunks rows
  if chunks = [] then ⟨[CdcError.noChunks], []⟩
  else
    let st := chunks.foldl (processChunk env) ⟨[], [], 0, []⟩
    if st.errors ≠ [] then ⟨st.errors, st.reads⟩
    else
      let errs :=
        if st.total_size ≠ nar_size_db then [CdcError.narSize st.total_size nar_size_db] else []
      let hex := env.sha256hex st.acc
      let errs := errs ++
        (if hash_matches env.toNix32 hex nar_hash_db then [] else [CdcError.narHash nar_hash_db hex])
      ⟨errs, st.reads⟩

/-- Errors `verify_flat` can append, one constructor per site. -/
inductive FlatError
  /-- "Missing file"/"S3 object not found" (the `FileNotFoundError` string) -/
  | readMissing (key : String)
  /-- "File size mismatch (disk …, DB file_size=…)" -/
  | fileSize (disk db : Nat)
  /-- "File hash mismatch" -/
  | fileHash (expectedDb gotHex : String)
deriving DecidableEq

/-- `verify_flat(state, nar_file_hash, compression, file_size_db, file_hash_db)`:
read the flat NAR (a failed read returns immediately), compare the byte length
to `file_size_db`, then always compute the SHA-256 of the raw bytes and
compare via `hash_matches` against `file_hash_db`. -/
def verify_flat (env : Env) (nar_file_hash : String) (compression : String)
    (file_size_db : Nat) (file_hash_db : String) : List FlatError :=
  let key := nar_file_key nar_file_hash compression
  match env.read key with
  | none => [FlatError.readMissing key]
  | some raw =>
    let errors :=
      if raw.length ≠ file_size_db then [FlatError.fileSize raw.length file_size_db] else []
    let sha256_hex := env.sha256hex raw
    errors ++
      (if hash_matches env.toNix32 sha256_hex file_hash_db then []
       else [FlatError.fileHash file_hash_db sha256_hex])

/-- The errors one iteration of `verify_cdc`'s loop appends for chunk `c`
(characterises `processChunk`; proven equal below). -/
def chunkErrs (env : Env) (c : ChunkRow) : List CdcError :=
  match env.read (chunk_key c.hash) with
  | none => [CdcError.chunkRead c.hash]
  | some compressed =>
    (if compressed.length ≠ c.compressed_size then
        [CdcError.chunkCompressedSize c.hash compressed.length c.compressed_size]
      else []) ++
    match env.decompress compressed with
    | none => [CdcError.chunkDecompress c.hash]
    | some data =>
      (if data.length ≠ c.size then [CdcError.chunkSize c.hash data.length c.size] else []) ++
      (if env.blake3hex data ≠ c.hash then [CdcError.chunkHash c.hash (env.blake3hex data)]
       else [])

/-- The decompressed bytes one iteration feeds to the running SHA-256 and
byte count — empty when the read or the decompression fails, matching the
loop's `continue` statements. -/
def chunkData (env : Env) (c : ChunkRow) : Bytes :=
  match env.read (chunk_key c.hash) with
  | none => []
  | some compressed =>
    match env.decompress compressed with
    | none => []
    | some data => data

/-- A `nar_files` row as consumed by `main`'s per-narinfo loop
(`nf["compression"]` may be SQL `NULL`, hence `Option`). -/
structure NarFileRow where
  id : Nat
  hash : String
  compression : Option String
  file_size : Nat
  total_chunks : Nat
deriving DecidableEq

/-- A `narinfos` row as consumed by `main` (only the fields the verifier
reads; `store_path` is only printed and is omitted). -/
structure NarInfoRow where
  id : Nat
  hash : String
  nar_hash : String
  nar_size : Nat
  file_hash : String
deriving DecidableEq

/-- Outcome of `main`'s handling of one NarInfo×NarFile pair, one constructor
per branch of the `for nf in nar_files` body. -/
inductive NarFileOutcome
  /-- "[FAIL] CDC enabled but nar_file … has total_chunks=0 (no chunks stored)" -/
  | cdcNoChunksStored (nf_id : Nat)
  /-- the `verify_cdc` call and its result -/
  | cdcVerified (r : CdcResult)
  /-- "[FAIL] CDC disabled but nar_file … has total_chunks=… (unexpected chunks)" -/
  | flatUnexpectedChunks (nf_id total_chunks : Nat)
  /-- the `verify_flat` call and its result -/
  | flatVerified (errs : List FlatError)
deriving DecidableEq

/-- Body of `main`'s `for nf in nar_files` loop: branch on `cdc_enabled` and
`total_chunks`, calling `verify_cdc` or `verify_flat`. `chunkRows nf.id`
stands for the `nar_file_chunks` rows of that nar_file; `nf["compression"]
or ""` maps a SQL `NULL` to the empty string. -/
def dispatchNarFile (cdc_enabled : Bool) (env : Env) (chunkRows : Nat → List ChunkRow)
    (nf : NarFileRow) (ni : NarInfoRow) : NarFileOutcome :=
  let nf_compression := nf.compression.getD ""
  if cdc_enabled then
    if nf.total_chunks = 0 then NarFileOutcome.cdcNoChunksStored nf.id
    else NarFileOutcome.cdcVerified (verify_cdc env (chunkRows nf.id) ni.nar_hash ni.nar_size)
  else
    if nf.total_chunks > 0 then NarFileOutcome.flatUnexpectedChunks nf.id nf.total_chunks
    else NarFileOutcome.flatVerified (verify_flat env nf.hash nf_compression nf.file_size ni.file_hash)

/-- Whether an outcome avoids `failures += 1` in `main` (the structural
branches `continue` after incrementing; the verified branches increment
exactly when the error list is non-empty). -/
def outcomePassed : NarFileOutcome → Bool
  | NarFileOutcome.cdcNoChunksStored _ => false
  | NarFileOutcome.cdcVerified r => r.errors.isEmpty
  | NarFileOutcome.flatUnexpectedChunks _ _ => false
  | NarFileOutcome.flatVerified errs => errs.isEmpty

/-- The relational catalog as the verifier queries it: the `narinfos` rows in
`ORDER BY id` order, the `nar_files` rows joined via `narinfo_nar_files` for a
narinfo id, and the `nar_file_chunks ⋈ chunks` rows for a nar_file id. -/
structure Catalog where
  narinfos : List NarInfoRow
  nar_files : Nat → List NarFileRow
  chunkRows : Nat → List ChunkRow

/-- The narinfo fetch of `main`: with `--hash` the `WHERE hash = ?` query,
otherwise all rows. -/
def selectNarinfos (filter_hash : Option String) (cat : Catalog) : List NarInfoRow :=
  match filter_hash with
  | none => cat.narinfos
  | some h => cat.narinfos.filter (fun ni => ni.hash == h)

/-- Python list slicing `xs[:n]` for an `int` bound: a non-negative bound
takes that many elements, a negative bound drops `-n` elements from the end. -/
def pySliceTo (n : Int) (xs : List α) : List α :=
  if 0 ≤ n then xs.take n.toNat else xs.take (xs.length - (-n).toNat)

/-- `if args.limit: narinfos = narinfos[:args.limit]` — the slice is applied
only when the parsed `--limit` value is truthy, i.e. present and non-zero. -/
def applyLimit (limit : Option Int) (xs : List α) : List α :=
  match limit with
  | none => xs
  | some n => if n ≠ 0 then pySliceTo n xs else xs

/-- `failures` contribution of one narinfo in `main`: 1 when no linked
nar_file exists, otherwise the number of linked nar_files whose outcome
failed (each failing nar_file increments `failures` once). -/
def narinfoFailures (cdc_enabled : Bool) (env : Env) (cat : Catalog) (ni : NarInfoRow) : Nat :=
  let nfs := cat.nar_files ni.id
  if nfs = [] then 1
  else (nfs.filter fun nf =>
    ! outcomePassed (dispatchNarFile cdc_enabled env cat.chunkRows nf ni)).length

/-- The db kinds `connect_db` recognises; any other value hits
`sys.exit(1)`. -/
def knownDb (db : String) : Bool :=
  db == "sqlite" || db == "postgres" || db == "mysql"

/-- The fields of `state.json` the exit-code path reads. -/
structure StateJson where
  db : String
  cdc : Bool

/-- Result of `load_state`: the file may be absent (`FileNotFoundError`) or
unparseable (`JSONDecodeError`), both of which `sys.exit(1)`. -/
inductive StateLoad
  | missing
  | unparseable
  | loaded (st : StateJson)

/-- Process exit code of a run of `main`: 1 if the state file is missing or
unparseable (`load_state` exits), 1 if the db kind is unknown (`connect_db`
exits) or the backend connection raises (`connOk = false`; the uncaught
driver exception terminates the process with code 1), otherwise 0 iff the
`failures` accumulated over the selected narinfos is 0 (`sys.exit(1)` on the
`FAILURE` summary branch). -/
def runExitCode (load : StateLoad) (connOk : Bool) (env : Env) (cat : Catalog)
    (filter_hash : Option String) (limit : Option Int) : Nat :=
  match load with
  | StateLoad.missing => 1
  | StateLoad.unparseable => 1
  | StateLoad.loaded st =>
    if ¬ knownDb st.db then 1
    else if ¬ connOk then 1
    else
      let narinfos := applyLimit limit (selectNarinfos filter_hash cat)
      let failures := (narinfos.map (narinfoFailures st.cdc env cat)).sum
      if failures = 0 then 0 else 1

/-- The flat key exactly as the spec words it:
`"store/nar/" + h[0] + "/" + h[0:2] + "/" + h + ".nar"` with `"." + c`
appended iff `c` is neither empty nor `"none"` (refinement comparison
target for `nar_file_key`). -/
def flat_key_spec (h c : String) : String :=
  "store/nar/" ++ h.take 1 ++ "/" ++ h.take 2 ++ "/" ++ h ++ ".nar" ++
    (if c ≠ "" ∧ c ≠ "none" then "." ++ c else "")

/-- The chunk key exactly as the spec words it:
`"store/chunk/" + h[0] + "/" + h[0:2] + "/" + h` (refinement comparison
target for `chunk_key`). -/
def chunk_key_spec (h : String) : String :=
  "store/chunk/" ++ h.take 1 ++ "/" ++ h.take 2 ++ "/" ++ h

/-- Map every `chunk_index` through `f`, keeping hash and sizes. -/
def reindexChunks (f : Nat → Nat) (rows : List ChunkRow) : List ChunkRow :=
  rows.map fun c => ⟨f c.chunk_index, c.hash, c.size, c.compressed_size⟩

/-- The rows are already in non-decreasing `chunk_index` order. -/
def nondecrIdx : List ChunkRow → Bool
  | [] => true
  | [_] => true
  | a :: b :: rest => decide (a.chunk_index ≤ b.chunk_index) && nondecrIdx (b :: rest)

/-- Fixture: a one-chunk store whose only chunk decompresses to `[7]` with
declared BLAKE3 `"aa"`, whole-NAR SHA-256 `"nh"`, and no base-32 converter. -/
def envC1 : Env :=
  { read := fun k => if k = chunk_key "aa" then some [7] else none,
    decompress := fun b => some b,
    blake3hex := fun b => if b = [7] then "aa" else "xx",
    sha256hex := fun _ => "nh",
    toNix32 := fun _ => none }

/-- Fixture: the linkage row of `envC1`'s chunk. -/
def chunkC1 : ChunkRow := ⟨0, "aa", 1, 1⟩

/-- Fixture: a two-chunk store holding chunks `"h0"` and `"h2"`, every
per-chunk and whole-object check of which succeeds. -/
def envC2 : Env :=
  { read := fun k =>
      if k = chunk_key "h0" then some [0]
      else if k = chunk_key "h2" then some [1] else none,
    decompress := fun b => some b,
    blake3hex := fun b => if b = [0] then "h0" else "h2",
    sha256hex := fun _ => "nh",
    toNix32 := fun _ => none }

/-- Fixture: linkage rows with the gapped `chunk_index` sequence `{0, 2}`. -/
def rowsC2 : List ChunkRow := [⟨0, "h0", 1, 1⟩, ⟨2, "h2", 1, 1⟩]

/-- Fixture: the same linkage rows with the contiguous sequence `{0, 1}`. -/
def rowsC2W : List ChunkRow := [⟨0, "h0", 1, 1⟩, ⟨1, "h2", 1, 1⟩]

/-- Fixture: a NarFile declaring `total_chunks = 3`. -/
def nfC2 : NarFileRow := ⟨1, "ff", none, 2, 3⟩

/-- Fixture: the NarInfo linked to `nfC2`. -/
def niC2 : NarInfoRow := ⟨1, "ni", "nh", 2, "fh"⟩

/-- Fixture: a flat store whose file bytes are `[5]` hashing to `"aa"`, with
no base-32 converter available. -/
def envC3 : Env :=
  { read := fun k => if k = nar_file_key "fh" "" then some [5] else none,
    decompress := fun b => some b,
    blake3hex := fun _ => "x",
    sha256hex := fun _ => "aa",
    toNix32 := fun _ => none }

/-- Fixture: an empty environment (every read misses). -/
def envC4 : Env :=
  { read := fun _ => none,
    decompress := fun _ => none,
    blake3hex := fun _ => "",
    sha256hex := fun _ => "",
    toNix32 := fun _ => none }

/-- Fixture: a NarFile with `total_chunks = 0` and `file_size = 0`. -/
def nfC4 : NarFileRow := ⟨7, "fh", none, 0, 0⟩

/-- Fixture: a NarInfo with `nar_size = 0`. -/
def niC4 : NarInfoRow := ⟨3, "ni", "nh", 0, "fh"⟩

/-- Fixture: a chunk whose catalog-declared hash `"b32h"` is the base-32
re-encoding of the computed BLAKE3 digest `"hexd"` (and is its storage key,
so the read succeeds). -/
def envC5 : Env :=
  { read := fun k => if k = chunk_key "b32h" then some [9] else none,
    decompress := fun b => some b,
    blake3hex := fun b => if b = [9] then "hexd" else "zz",
    sha256hex := fun _ => "s",
    toNix32 := fun s => if s = "hexd" then some "b32h" else none }

/-- Fixture: the linkage row of `envC5`'s chunk. -/
def chunkC5 : ChunkRow := ⟨0, "b32h", 1, 1⟩

/-- Fixture: a flat store whose file is 2 bytes long hashing to `"s"`. -/
def envC6 : Env :=
  { read := fun k => if k = nar_file_key "zz" "xz" then some [1, 2] else none,
    decompress := fun b => some b,
    blake3hex := fun _ => "x",
    sha256hex := fun _ => "s",
    toNix32 := fun _ => none }

theorem processChunk_eq (env : Env) (st : CdcState) (c : ChunkRow) :
    processChunk env st c =
      ⟨st.errors ++ chunkErrs env c, st.acc ++ chunkData env c,
       st.total_size + (chunkData env c).length, st.reads ++ [chunk_key c.hash]⟩ := by
  simp only [processChunk, chunkErrs, chunkData]
  rcases h1 : env.read (chunk_key c.hash) with _ | compressed
  · simp
  · dsimp only
    rcases h2 : env.decompress compressed with _ | data <;> dsimp only
    · split_ifs <;> simp [List.append_assoc]
    · split_ifs <;> simp [List.append_assoc]

theorem foldl_processChunk (env : Env) (cs : List ChunkRow) :
    ∀ st : CdcState,
      cs.foldl (processChunk env) st =
        ⟨st.errors ++ (cs.map (chunkErrs env)).flatten,
         st.acc ++ (cs.map (chunkData env)).flatten,
         st.total_size + ((cs.map (chunkData env)).flatten).length,
         st.reads ++ cs.map (fun c => chunk_key c.hash)⟩ := by
  induction cs with
  | nil => intro st; simp
  | cons c cs ih =>
    intro st
    simp only [List.foldl_cons, List.map_cons, List.flatten_cons, processChunk_eq, ih,
      List.append_assoc, List.length_append, Nat.add_assoc, List.singleton_append]

theorem chunkErrs_not_whole (env : Env) (c : ChunkRow) :
    ∀ e ∈ chunkErrs env c, isWholeObjectErr e = false := by
  intro e he
  unfold chunkErrs at he
  split at he
  · simp at he; subst he; rfl
  · rw [List.mem_append] at he
    rcases he with he | he
    · split at he
      · simp at he; subst he; rfl
      · simp at he
    · split at he
      · simp at he; subst he; rfl
      · rw [List.mem_append] at he
        rcases he with he | he <;> split at he <;> simp at he <;> subst he <;> rfl

theorem verify_cdc_eq (env : Env) (rows : List ChunkRow) (nar_hash_db : String)
    (nar_size_db : Nat) (hne : sortChunks rows ≠ []) :
    verify_cdc env rows nar_hash_db nar_size_db =
      (if ((sortChunks rows).map (chunkErrs env)).flatten ≠ [] then
        ⟨((sortChunks rows).map (chunkErrs env)).flatten,
         (sortChunks rows).map (fun c => chunk_key c.hash)⟩
      else
        ⟨(if ((sortChunks rows).map (chunkData env)).flatten.length ≠ nar_size_db then
            [CdcError.narSize ((sortChunks rows).map (chunkData env)).flatten.length nar_size_db]
          else []) ++
          (if hash_matches env.toNix32
              (env.sha256hex ((sortChunks rows).map (chunkData env)).flatten) nar_hash_db then []
           else [CdcError.narHash nar_hash_db
              (env.sha256hex ((sortChunks rows).map (chunkData env)).flatten)]),
         (sortChunks rows).map (fun c => chunk_key c.hash)⟩) := by
  simp only [verify_cdc, foldl_processChunk]
  rw [if_neg hne]
  simp only [List.nil_append, Nat.zero_add]

theorem chunkErrs_of_read_decompress (env : Env) (c : ChunkRow) (compressed data : Bytes)
    (hr : env.read (chunk_key c.hash) = some compressed)
    (hd : env.decompress compressed = some data) :
    chunkErrs env c =
      (if compressed.length ≠ c.compressed_size then
          [CdcError.chunkCompressedSize c.hash compressed.length c.compressed_size]
        else []) ++
      ((if data.length ≠ c.size then [CdcError.chunkSize c.hash data.length c.size] else []) ++
       (if env.blake3hex data ≠ c.hash then [CdcError.chunkHash c.hash (env.blake3hex data)]
        else [])) := by
  unfold chunkErrs
  rw [hr]
  dsimp only
  rw [hd]

theorem sumMap_eq_zero_iff (l : List α) (f : α → Nat) :
    (l.map f).sum = 0 ↔ ∀ x ∈ l, f x = 0 := by
  induction l with
  | nil => simp
  | cons a l ih => simp [ih, Nat.add_eq_zero]

theorem insertChunk_cons_le (c d : ChunkRow) (ds : List ChunkRow)
    (h : c.chunk_index ≤ d.chunk_index) : insertChunk c (d :: ds) = c :: d :: ds := by
  simp [insertChunk, h]

theorem sortChunks_of_nondecr : ∀ l, nondecrIdx l = true → sortChunks l = l := by
  intro l
  induction l with
  | nil => intro _; rfl
  | cons a l ih =>
    intro h
    cases l with
    | nil => rfl
    | cons b r =>
      simp only [nondecrIdx, Bool.and_eq_true, decide_eq_true_eq] at h
      obtain ⟨h1, h2⟩ := h
      show insertChunk a (sortChunks (b :: r)) = a :: b :: r
      rw [ih h2]
      exact insertChunk_cons_le a b r h1

theorem nondecr_reindex (f : Nat → Nat) (hf : ∀ a b, a ≤ b → f a ≤ f b) :
    ∀ l, nondecrIdx l = true → nondecrIdx (reindexChunks f l) = true := by
  intro l
  induction l with
  | nil => intro _; rfl
  | cons a l ih =>
    cases l with
    | nil => intro _; rfl
    | cons b r =>
      intro h
      simp only [nondecrIdx, Bool.and_eq_true, decide_eq_true_eq] at h
      obtain ⟨h1, h2⟩ := h
      have hrec := ih h2
      simp only [reindexChunks, List.map_cons] at hrec ⊢
      simp only [nondecrIdx, Bool.and_eq_true, decide_eq_true_eq]
      exact ⟨hf _ _ h1, hrec⟩

theorem processChunk_reindex (env : Env) (f : Nat → Nat) (st : CdcState) (c : ChunkRow) :
    processChunk env st ⟨f c.chunk_index, c.hash, c.size, c.compressed_size⟩ =
      processChunk env st c := rfl

theorem foldl_reindex (env : Env) (f : Nat → Nat) :
    ∀ (l : List ChunkRow) (st : CdcState),
      (reindexChunks f l).foldl (processChunk env) st = l.foldl (processChunk env) st := by
  intro l
  induction l with
  | nil => intro _; rfl
  | cons c l ih =>
    intro st
    simp only [reindexChunks, List.map_cons, List.foldl_cons] at ih ⊢
    rw [processChunk_reindex]
    exact ih (processChunk env st c)

/-- C1: in `verify_cdc`, once some chunk rows exist, (a) if any per-chunk
check (read, compressed size, decompression, decompressed size, or BLAKE3
content digest) failed, the returned errors are exactly the per-chunk errors
— so the entry Fails and no whole-object `narSize`/`narHash` comparison
contributes; (b) if no per-chunk check failed, the entry Passes iff the
accumulated decompressed byte count equals NarInfo's `nar_size` and the
SHA-256 of the concatenated decompressed bytes matches NarInfo's `nar_hash`
via `hash_matches`. -/
theorem cdc_whole_object_gating (env : Env) (rows : List ChunkRow)
    (nar_hash_db : String) (nar_size_db : Nat) (hne : sortChunks rows ≠ []) :
    (((sortChunks rows).map (chunkErrs env)).flatten ≠ [] →
      (verify_cdc env rows nar_hash_db nar_size_db).errors =
          ((sortChunks rows).map (chunkErrs env)).flatten ∧
        ∀ e ∈ (verify_cdc env rows nar_hash_db nar_size_db).errors,
          isWholeObjectErr e = false) ∧
    (((sortChunks rows).map (chunkErrs env)).flatten = [] →
      ((verify_cdc env rows nar_hash_db nar_size_db).errors = [] ↔
        (((sortChunks rows).map (chunkData env)).flatten.length = nar_size_db ∧
         hash_matches env.toNix32
           (env.sha256hex ((sortChunks rows).map (chunkData env)).flatten)
           nar_hash_db = true))) := by
  rw [verify_cdc_eq env rows nar_hash_db nar_size_db hne]
  constructor
  · intro hpc
    rw [if_pos hpc]
    refine ⟨rfl, ?_⟩
    intro e he
    dsimp only at he
    rw [List.mem_flatten] at he
    obtain ⟨l, hl, hel⟩ := he
    rw [List.mem_map] at hl
    obtain ⟨c, _, rfl⟩ := hl
    exact chunkErrs_not_whole env c e hel
  · intro hpc
    rw [if_neg (by simp [hpc])]
    dsimp only
    split_ifs with h1 h2 <;> simp_all

/-- Witness for C1 at a concrete one-chunk store whose chunk and whole-object
checks all succeed. -/
theorem cdc_whole_object_gating_witness :
    (verify_cdc envC1 [chunkC1] "nh" 1).errors = [] ↔
      (((sortChunks [chunkC1]).map (chunkData envC1)).flatten.length = 1 ∧
       hash_matches envC1.toNix32
         (envC1.sha256hex ((sortChunks [chunkC1]).map (chunkData envC1)).flatten) "nh" = true) :=
  (cdc_whole_object_gating envC1 [chunkC1] "nh" 1 (by decide)).2 (by decide)

/-- C2 counterexample: a NarFile declaring `total_chunks = 3` whose linkage
rows carry the gapped `chunk_index` sequence `{0, 2}` is not rejected
structurally: the verifier reads (and hashes) both chunks and, since every
per-chunk and whole-object check passes, reports the entry as Pass. -/
theorem cdc_gap_counterexample :
    nfC2.total_chunks = 3 ∧
    rowsC2.map (fun c => c.chunk_index) = [0, 2] ∧
    dispatchNarFile true envC2 (fun _ => rowsC2) nfC2 niC2 =
      NarFileOutcome.cdcVerified ⟨[], [chunk_key "h0", chunk_key "h2"]⟩ ∧
    outcomePassed (dispatchNarFile true envC2 (fun _ => rowsC2) nfC2 niC2) = true := by
  decide

/-- C2 amended: the verifier performs no contiguity check on `chunk_index` —
the result of `verify_cdc` is invariant under any monotone reindexing of
already-ordered rows (for instance `{0, 1} ↦ {0, 2}`), so a gap in the
sequence is never a structural failure; it can only surface through the
whole-object size/hash comparisons. -/
theorem verify_cdc_no_contiguity_check (env : Env) (rows : List ChunkRow)
    (f : Nat → Nat) (nar_hash_db : String) (nar_size_db : Nat)
    (hs : nondecrIdx rows = true) (hf : ∀ a b, a ≤ b → f a ≤ f b) :
    verify_cdc env (reindexChunks f rows) nar_hash_db nar_size_db =
      verify_cdc env rows nar_hash_db nar_size_db := by
  simp only [verify_cdc]
  rw [sortChunks_of_nondecr rows hs,
    sortChunks_of_nondecr _ (nondecr_reindex f hf rows hs)]
  cases rows with
  | nil => rfl
  | cons c r =>
    rw [if_neg (by simp [reindexChunks] : ¬(reindexChunks f (c :: r) = [])),
      if_neg (by simp : ¬(c :: r = []))]
    rw [foldl_reindex env f (c :: r)]

/-- Witness for the amended C2: reindexing the contiguous rows `{0, 1}` to
the gapped `{0, 2}` leaves the verification result unchanged. -/
theorem verify_cdc_no_contiguity_check_witness :
    verify_cdc envC2 (reindexChunks (fun n => n + n) rowsC2W) "nh" 2 =
      verify_cdc envC2 rowsC2W "nh" 2 :=
  verify_cdc_no_contiguity_check envC2 rowsC2W (fun n => n + n) "nh" 2 (by decide)
    (fun _ _ h => Nat.add_le_add h h)

/-- C3 counterexample: with no base-32 converter available (`to_nix32`
returns `None`), a computed digest `"aa"` against a declared `"bb"` is
treated as a plain mismatch — `hash_matches` returns false and `verify_flat`
reports the hash-mismatch Fail; no "encoding unverifiable" outcome exists
(the error type has no such constructor because the source emits none). -/
theorem converter_unavailable_counterexample :
    hash_matches envC3.toNix32 "aa" "bb" = false ∧
    verify_flat envC3 "fh" "" 1 "bb" = [FlatError.fileHash "bb" "aa"] := by
  decide

/-- C3 amended: when the hex-to-base32 converter is unavailable for the
computed digest, `hash_matches` accepts only exact hex identity with the
(scheme-stripped, non-empty) declared value; a failed conversion with
non-identical strings is reported as a hash-mismatch Fail, not as a distinct
"encoding unverifiable" outcome. -/
theorem hash_matches_without_converter (toNix32F : String → Option String)
    (computed expected : String) (hconv : toNix32F computed = none) :
    hash_matches toNix32F computed expected = true ↔
      (stripScheme expected ≠ "" ∧ computed = stripScheme expected) := by
  simp only [hash_matches]
  split_ifs with h1 h2 <;> simp_all

/-- Witness for the amended C3 at the constant-`none` converter. -/
theorem hash_matches_without_converter_witness :
    hash_matches (fun _ => none) "cc" "dd" = true ↔
      (stripScheme "dd" ≠ "" ∧ "cc" = stripScheme "dd") :=
  hash_matches_without_converter (fun _ => none) "cc" "dd" rfl

/-- C4 counterexample: with chunking enabled, a NarFile with
`total_chunks = 0` linked to a NarInfo with `nar_size = 0` is reported as the
structural "CDC enabled but total_chunks=0" Fail, not as a vacuous Pass. -/
theorem cdc_zero_chunks_counterexample :
    nfC4.total_chunks = 0 ∧ niC4.nar_size = 0 ∧
    dispatchNarFile true envC4 (fun _ => []) nfC4 niC4 =
      NarFileOutcome.cdcNoChunksStored 7 ∧
    outcomePassed (dispatchNarFile true envC4 (fun _ => []) nfC4 niC4) = false := by
  decide

/-- C4 amended: when chunking is enabled, every NarFile declaring
`total_chunks = 0` is reported as a structural Fail — regardless of the
NarInfo's `nar_size`, including `nar_size = 0`; no vacuous empty-file Pass
exists on the CDC path. -/
theorem cdc_zero_chunks_structural_fail (env : Env) (chunkRows : Nat → List ChunkRow)
    (nf : NarFileRow) (ni : NarInfoRow) (h : nf.total_chunks = 0) :
    dispatchNarFile true env chunkRows nf ni = NarFileOutcome.cdcNoChunksStored nf.id ∧
    outcomePassed (dispatchNarFile true env chunkRows nf ni) = false := by
  simp [dispatchNarFile, h, outcomePassed]

/-- Witness for the amended C4 at a concrete zero-chunk, zero-size entry. -/
theorem cdc_zero_chunks_structural_fail_witness :
    dispatchNarFile true envC4 (fun _ => []) ⟨9, "x", none, 1, 0⟩ niC4 =
      NarFileOutcome.cdcNoChunksStored 9 ∧
    outcomePassed (dispatchNarFile true envC4 (fun _ => []) ⟨9, "x", none, 1, 0⟩ niC4) = false :=
  cdc_zero_chunks_structural_fail envC4 (fun _ => []) ⟨9, "x", none, 1, 0⟩ niC4 rfl

/-- C5 counterexample: a chunk whose declared hash is the base-32 form of the
computed BLAKE3 digest (so `hash_matches` would accept it) is nevertheless
reported as a BLAKE3 mismatch: the per-chunk comparison is plain string
equality, not `hash_matches`. -/
theorem chunk_hash_base32_counterexample :
    hash_matches envC5.toNix32 (envC5.blake3hex [9]) chunkC5.hash = true ∧
    (verify_cdc envC5 [chunkC5] "nh" 1).errors = [CdcError.chunkHash "b32h" "hexd"] := by
  decide

/-- C5 amended: the per-chunk content-digest check compares the computed
BLAKE3 hex digest with the chunk's declared hash by string equality (the
declared hash is the chunk's content address): for a chunk whose read and
decompression succeed, the BLAKE3-mismatch error is present iff the computed
digest differs literally from the declared hash, regardless of any base-32
re-encoding. -/
theorem chunk_hash_check_is_string_equality (env : Env) (c : ChunkRow)
    (compressed data : Bytes) (nar_hash_db : String) (nar_size_db : Nat)
    (hr : env.read (chunk_key c.hash) = some compressed)
    (hd : env.decompress compressed = some data) :
    (CdcError.chunkHash c.hash (env.blake3hex data) ∈
        (verify_cdc env [c] nar_hash_db nar_size_db).errors) ↔
      env.blake3hex data ≠ c.hash := by
  have hs : sortChunks [c] = [c] := rfl
  have hne : sortChunks [c] ≠ [] := by rw [hs]; simp
  rw [verify_cdc_eq env [c] nar_hash_db nar_size_db hne, hs]
  simp only [List.map_cons, List.map_nil, List.flatten_cons, List.flatten_nil,
    List.append_nil]
  rw [chunkErrs_of_read_decompress env c compressed data hr hd]
  by_cases hb : env.blake3hex data ≠ c.hash
  · rw [if_pos (by simp [hb] : ¬((if compressed.length ≠ c.compressed_size then
        [CdcError.chunkCompressedSize c.hash compressed.length c.compressed_size]
      else []) ++
      ((if data.length ≠ c.size then [CdcError.chunkSize c.hash data.length c.size] else []) ++
       (if env.blake3hex data ≠ c.hash then [CdcError.chunkHash c.hash (env.blake3hex data)]
        else [])) = []))]
    simp only [iff_true_intro hb, iff_true]
    simp [List.mem_append, hb]
  · rw [not_not] at hb
    simp only [hb]
    split_ifs <;> simp_all

/-- Witness for the amended C5 at the base-32-declared-hash fixture. -/
theorem chunk_hash_check_is_string_equality_witness :
    (CdcError.chunkHash chunkC5.hash (envC5.blake3hex [9]) ∈
        (verify_cdc envC5 [chunkC5] "nh" 1).errors) ↔
      envC5.blake3hex [9] ≠ chunkC5.hash :=
  chunk_hash_check_is_string_equality envC5 chunkC5 [9] [9] "nh" 1 (by decide) rfl

/-- C6: in `verify_flat`, when the read succeeds but the stored byte length
differs from the declared `file_size`, the size-mismatch error is recorded
and the SHA-256 hash comparison is still performed — the returned error list
is the size error followed by the hash error iff `hash_matches` fails, so
all checks accumulate and the entry Fails with itemized reasons. -/
theorem flat_size_mismatch_still_hashes (env : Env) (h comp : String)
    (file_size_db : Nat) (file_hash_db : String) (raw : Bytes)
    (hr : env.read (nar_file_key h comp) = some raw)
    (hsz : raw.length ≠ file_size_db) :
    verify_flat env h comp file_size_db file_hash_db =
      FlatError.fileSize raw.length file_size_db ::
        (if hash_matches env.toNix32 (env.sha256hex raw) file_hash_db then []
         else [FlatError.fileHash file_hash_db (env.sha256hex raw)]) ∧
    verify_flat env h comp file_size_db file_hash_db ≠ [] := by
  have he : verify_flat env h comp file_size_db file_hash_db =
      FlatError.fileSize raw.length file_size_db ::
        (if hash_matches env.toNix32 (env.sha256hex raw) file_hash_db then []
         else [FlatError.fileHash file_hash_db (env.sha256hex raw)]) := by
    simp only [verify_flat]
    rw [hr]
    dsimp only
    rw [if_pos hsz]
    simp
  exact ⟨he, by rw [he]; simp⟩

/-- Witness for C6 at a 2-byte stored file declared as 3 bytes. -/
theorem flat_size_mismatch_still_hashes_witness :
    verify_flat envC6 "zz" "xz" 3 "s" =
      FlatError.fileSize 2 3 ::
        (if hash_matches envC6.toNix32 (envC6.sha256hex [1, 2]) "s" then []
         else [FlatError.fileHash "s" (envC6.sha256hex [1, 2])]) ∧
    verify_flat envC6 "zz" "xz" 3 "s" ≠ [] :=
  flat_size_mismatch_still_hashes envC6 "zz" "xz" 3 "s" [1, 2] (by decide) (by decide)

/-- C7: content-hash matching accepts both encodings of one digest. For any
digest `h` that carries no `"sha256:"` scheme and is non-empty (true of every
valid hex digest), `hash_matches h h` holds, and whenever the converter
re-encodes `h` to a base-32 string `s` (itself non-empty and scheme-free, as
every vendor base-32 encoding is), `hash_matches h s` holds as well. -/
theorem hash_matches_hex_and_nix32 (toNix32F : String → Option String) (h s : String)
    (hne : h ≠ "") (hclean : stripScheme h = h)
    (hsne : s ≠ "") (hsclean : stripScheme s = s) :
    hash_matches toNix32F h h = true ∧
      (toNix32F h = some s → hash_matches toNix32F h s = true) := by
  constructor
  · simp only [hash_matches]
    rw [hclean, if_neg hne, if_pos rfl]
  · intro henc
    simp only [hash_matches]
    rw [hsclean, if_neg hsne]
    by_cases heq : h = s
    · rw [if_pos heq]
    · rw [if_neg heq, henc]
      simp

/-- Witness for C7 at a concrete digest and converter. -/
theorem hash_matches_hex_and_nix32_witness :
    hash_matches (fun x => if x = "aa" then some "zz" else none) "aa" "aa" = true ∧
      ((fun x => if x = "aa" then some "zz" else none) "aa" = some "zz" →
        hash_matches (fun x => if x = "aa" then some "zz" else none) "aa" "zz" = true) :=
  hash_matches_hex_and_nix32 (fun x => if x = "aa" then some "zz" else none) "aa" "zz"
    (by decide) (by decide) (by decide) (by decide)

theorem store_nar_lit (x : String) :
    "store/" ++ ("nar/" ++ x) = "store/nar/" ++ x := by
  have hl : "store/" ++ "nar/" = "store/nar/" := by decide
  rw [← String.append_assoc, hl]

theorem store_chunk_lit (x : String) :
    "store/" ++ ("chunk/" ++ x) = "store/chunk/" ++ x := by
  have hl : "store/" ++ "chunk/" = "store/chunk/" := by decide
  rw [← String.append_assoc, hl]

theorem nar_dot_lit (c : String) : ".nar" ++ ("." ++ c) = ".nar." ++ c := by
  have hl : ".nar" ++ "." = ".nar." := by decide
  rw [← String.append_assoc, hl]

/-- C8: key derivation is the pure function the spec describes:
`nar_file_key` equals `"store/nar/" + h[0] + "/" + h[0:2] + "/" + h + ".nar"`
with `"." + c` appended iff `c` is neither empty nor `"none"`; `chunk_key`
equals `"store/chunk/" + h[0] + "/" + h[0:2] + "/" + h`; and a missing
(`NULL`, mapped by `or ""`) or `"none"` compression yields the uncompressed
key rather than an error. -/
theorem key_derivation_matches_spec (h c : String) :
    nar_file_key h c = flat_key_spec h c ∧
    chunk_key h = chunk_key_spec h ∧
    nar_file_key h ((none : Option String).getD "") = nar_file_key h "" ∧
    nar_file_key h "none" = nar_file_key h "" ∧
    nar_file_key h "" =
      "store/nar/" ++ h.take 1 ++ "/" ++ h.take 2 ++ "/" ++ h ++ ".nar" := by
  refine ⟨?_, ?_, rfl, rfl, ?_⟩
  · simp only [nar_file_key, flat_key_spec, ospath_join]
    split_ifs <;> simp [String.append_assoc, store_nar_lit, nar_dot_lit]
  · simp only [chunk_key, chunk_key_spec, ospath_join]
    simp [String.append_assoc, store_chunk_lit]
  · simp only [nar_file_key, ospath_join]
    rw [if_neg (by simp)]
    simp [String.append_assoc, store_nar_lit]

/-- C9: the process exit code is 0 or 1; it is 0 exactly when the state file
loaded, the catalog connection was established (known db kind and a
successful backend connect), and every selected narinfo verified with zero
failures; in every other case — any failing entry, a missing or unparseable
state file, or no catalog connection — it is 1. -/
theorem exit_code_semantics (load : StateLoad) (connOk : Bool) (env : Env)
    (cat : Catalog) (filter_hash : Option String) (limit : Option Int) :
    (runExitCode load connOk env cat filter_hash limit = 0 ∨
      runExitCode load connOk env cat filter_hash limit = 1) ∧
    (runExitCode load connOk env cat filter_hash limit = 0 ↔
      ∃ st : StateJson, load = StateLoad.loaded st ∧ knownDb st.db = true ∧
        connOk = true ∧
        ∀ ni ∈ applyLimit limit (selectNarinfos filter_hash cat),
          narinfoFailures st.cdc env cat ni = 0) := by
  cases load with
  | missing => simp [runExitCode]
  | unparseable => simp [runExitCode]
  | loaded st =>
    simp only [runExitCode]
    split_ifs with h1 h2 h3
    · exact ⟨Or.inl rfl,
        iff_of_true rfl ⟨st, rfl, h1, h2, (sumMap_eq_zero_iff _ _).mp h3⟩⟩
    · refine ⟨Or.inr rfl, iff_of_false (by simp) ?_⟩
      rintro ⟨st', heq, _, _, hall⟩
      injection heq with heq
      subst heq
      exact h3 ((sumMap_eq_zero_iff _ _).mpr hall)
    · simp [h1, h2]
    · simp [h1]

/-- C10: `--limit 0` does not cap the result set: since the slice is applied
only when the parsed limit is truthy, `applyLimit (some 0)` is the identity,
the same narinfo list as with no `--limit` flag, and the whole run's exit
code is unchanged. -/
theorem limit_zero_is_no_limit (xs : List NarInfoRow) (load : StateLoad)
    (connOk : Bool) (env : Env) (cat : Catalog) (filter_hash : Option String) :
    applyLimit (some 0) xs = xs ∧ applyLimit (none : Option Int) xs = xs ∧
    runExitCode load connOk env cat filter_hash (some 0) =
      runExitCode load connOk env cat filter_hash none := by
  refine ⟨by simp [applyLimit], rfl, ?_⟩
  cases load <;> simp [runExitCode, applyLimit]

end NcpsVerify
